import Mathlib

/-!
# FORMS-Bridge: topic matching, sensor-ID resolution and message dispatch

A shallow embedding of `src/mqtt.go` (with the types of `src/config.go` it
uses) and proofs about it.

Conventions of the embedding.

* A Go `string` is a Lean `String`.  `strings.Split(s, "/")` cuts at every
  `/`; on well-formed UTF-8 text cutting at the byte `0x2F` and cutting at
  the character `/` agree, since that byte never occurs inside a multi-byte
  sequence.
* `map[string]TopicMap` is a lookup function `String → Option TopicMap`;
  assignment `m[k] = v` overrides the entry at `k`.
* `(string, error)` is `Except String String`, the error being the text given
  to `fmt.Errorf`.
* `float64` is `Float` (the value is only carried, never computed with) and
  `int64` is `Int` (the timestamp is only compared with `0` and replaced).
* The logger and the API client are effects: `messageHandler` returns the
  ordered list of the events it causes.
-/

namespace FormsBridge

/-! ## Data model (`config.go`, `mqtt.go`) -/

/-- The `TopicMap` struct of `config.go`: one configured routing rule. -/
structure TopicMap where
  MQTTTopic : String
  SensorIDFromPayload : Bool
  Description : String
  deriving DecidableEq, Repr

/-- The `Config` struct of `config.go`, restricted to the field that
`mqtt.go` reads for routing (`Topics`). -/
structure Config where
  Topics : List TopicMap
  deriving DecidableEq, Repr

/-- The `SensorPayload` struct of `mqtt.go`. -/
structure SensorPayload where
  SensorID : String
  Value : Float
  Timestamp : Int

/-- The `MQTTBridge` struct of `mqtt.go`, restricted to the fields that take
part in routing: the configuration and the exact-match map. -/
structure MQTTBridge where
  config : Config
  topicMap : String → Option TopicMap

/-! ## `strings.Split(s, "/")` -/

/-- Cut a character sequence at every `/`.  The result always has one more
segment than there are `/` characters; the empty sequence gives one empty
segment. -/
def splitSegments : List Char → List (List Char)
  | [] => [[]]
  | c :: cs =>
    if c = '/' then [] :: splitSegments cs
    else
      match splitSegments cs with
      | [] => [[c]]
      | seg :: rest => (c :: seg) :: rest

/-- Go's `strings.Split(s, "/")`. -/
def stringsSplit (s : String) : List String :=
  (splitSegments s.data).map String.mk

/-! ## `matchTopic` -/

/-- The `for i := range patternParts` loop of `matchTopic`, entered at index
`i` with the pattern segments from `i` on still to visit; when they are
exhausted the final `len(patternParts) == len(topicParts)` is returned. -/
def matchTopicLoop (patternParts topicParts : List String) : Nat → List String → Bool
  | _, [] => patternParts.length == topicParts.length
  | i, part :: rest =>
    if part = "#" then true
    else if h : topicParts.length ≤ i then false
    else if part = "+" then matchTopicLoop patternParts topicParts (i + 1) rest
    else if part ≠ topicParts.get ⟨i, Nat.lt_of_not_le h⟩ then false
    else matchTopicLoop patternParts topicParts (i + 1) rest

/-- The method `matchTopic` of `mqtt.go`. -/
def matchTopic (pattern topic : String) : Bool :=
  let patternParts := stringsSplit pattern
  let topicParts := stringsSplit topic
  matchTopicLoop patternParts topicParts 0 patternParts

/-! ## `NewMQTTBridge` -/

/-- The empty map, `make(map[string]TopicMap)`. -/
def emptyTopicMap : String → Option TopicMap := fun _ => none

/-- Map assignment `m[k] = v`. -/
def mapAssign (m : String → Option TopicMap) (k : String) (v : TopicMap) :
    String → Option TopicMap :=
  fun key => if key = k then some v else m key

/-- The loop `for _, tm := range config.Topics { topicMap[tm.MQTTTopic] = tm }`. -/
def buildTopicMap (topics : List TopicMap) : String → Option TopicMap :=
  topics.foldl (fun m tm => mapAssign m tm.MQTTTopic tm) emptyTopicMap

/-- The constructor `NewMQTTBridge` of `mqtt.go`. -/
def NewMQTTBridge (config : Config) : MQTTBridge :=
  { config := config, topicMap := buildTopicMap config.Topics }

/-! ## `getSensorID` -/

/-- The wildcard loop `for _, tm := range b.config.Topics` of `getSensorID`,
with the `return` after the loop as the base case. -/
def getSensorIDScan (topic : String) (payload : SensorPayload) :
    List TopicMap → Except String String
  | [] => .error ("no mapping found for topic: " ++ topic)
  | tm :: rest =>
    if matchTopic tm.MQTTTopic topic then
      if tm.SensorIDFromPayload then
        if payload.SensorID = "" then .error "sensorId not found in payload"
        else .ok payload.SensorID
      else .error "topic matched but sensor_id_from_payload not enabled"
    else getSensorIDScan topic payload rest

/-- The method `getSensorID` of `mqtt.go`. -/
def getSensorID (b : MQTTBridge) (topic : String) (payload : SensorPayload) :
    Except String String :=
  match b.topicMap topic with
  | some tm =>
    if tm.SensorIDFromPayload then
      if payload.SensorID = "" then .error "sensorId not found in payload"
      else .ok payload.SensorID
    else .error "topic matched but sensor_id_from_payload not enabled"
  | none => getSensorIDScan topic payload b.config.Topics

/-! ## `messageHandler` -/

/-- What `messageHandler` does to the outside: a log line (level and
message) or a call of `apiClient.SendSensorData`. -/
inductive Event where
  | log (level : String) (msg : String)
  | sendSensorData (sensorID : String) (value : Float) (timestamp : Int)

/-- The method `messageHandler` of `mqtt.go`.  `decoded` is the outcome of
`json.Unmarshal(msg.Payload(), &payload)`, `now` is what
`time.Now().UnixMilli()` returns, and `send` is `apiClient.SendSensorData`
(`none` for a nil error). -/
def messageHandler {ε : Type} (b : MQTTBridge) (topic : String)
    (decoded : Except ε SensorPayload) (now : Int)
    (send : String → Float → Int → Option String) : List Event :=
  let received := Event.log "debug" "Received MQTT message"
  match decoded with
  | .error _ => [received, .log "error" "Failed to parse JSON payload"]
  | .ok payload =>
    match getSensorID b topic payload with
    | .error _ => [received, .log "error" "Failed to determine sensor ID"]
    | .ok sensorID =>
      let payload : SensorPayload :=
        if payload.Timestamp = 0 then { payload with Timestamp := now } else payload
      let processing := Event.log "info" "Processing sensor data"
      let call := Event.sendSensorData sensorID payload.Value payload.Timestamp
      match send sensorID payload.Value payload.Timestamp with
      | some _ => [received, processing, call, .log "error" "Failed to send data to API"]
      | none =>
        [received, processing, call, .log "info" "Successfully forwarded sensor data to API"]

/-- The Forwarder calls among the events, in order, as argument triples. -/
def forwarderCalls : List Event → List (String × Float × Int)
  | [] => []
  | .sendSensorData sensorID value timestamp :: es =>
    (sensorID, value, timestamp) :: forwarderCalls es
  | .log _ _ :: es => forwarderCalls es

/-! ## `json.Unmarshal(msg.Payload(), &payload)`

`messageHandler` decodes with `encoding/json` of the Go standard library.
This section embeds what that package is documented to do for the target
type `SensorPayload` with its three tags `sensorId`, `value` and
`timestamp`, on a syntactically valid JSON text given as a value tree: keys
are matched to field names exactly or else case-insensitively, members that
match no field are skipped, fields without a member keep their value, and a
value of the wrong JSON type is an `UnmarshalTypeError`.  The
case-insensitive comparison is a parameter `equalFold`, so that the theorems
hold for whatever folding the package applies.  (A text that is not valid
JSON makes `Unmarshal` return a syntax error; in `messageHandler` that is the
`.error` case of `decoded`.) -/

/-- A JSON value.  A number token is kept as what the decoder turns it into:
`asFloat64` is the result of `strconv.ParseFloat(tok, 64)` and `asInt64`
that of `strconv.ParseInt(tok, 10, 64)`, each `none` when the conversion
reports an error (out of range, or not an integer for `asInt64`). -/
inductive JSONValue where
  | null
  | bool (b : Bool)
  | number (asFloat64 : Option Float) (asInt64 : Option Int)
  | string (s : String)
  | array (elems : List JSONValue)
  | object (members : List (String × JSONValue))

/-- The fields of `SensorPayload`, in declaration order. -/
inductive PayloadField where
  | sensorId
  | value
  | timestamp
  deriving DecidableEq, Repr

/-- The JSON name of a field, from its struct tag. -/
def PayloadField.tag : PayloadField → String
  | .sensorId => "sensorId"
  | .value => "value"
  | .timestamp => "timestamp"

/-- The fields of `SensorPayload`, in declaration order, as a list. -/
def payloadFields : List PayloadField := [.sensorId, .value, .timestamp]

/-- An `*json.UnmarshalTypeError`, reduced to the JSON name of the field it
is about (empty for the top-level value). -/
structure UnmarshalTypeError where
  Field : String
  deriving DecidableEq, Repr

/-- The field an object key is decoded into: the field whose name is the key
exactly, otherwise the first field whose name matches the key under the
package's case-insensitive comparison `equalFold` (name first, key second),
otherwise none: the member is skipped. -/
def fieldForKey (equalFold : String → String → Bool) (key : String) : Option PayloadField :=
  match payloadFields.find? (fun f => decide (f.tag = key)) with
  | some f => some f
  | none => payloadFields.find? (fun f => equalFold f.tag key)

/-- Storing one member value into a field.  `null` leaves a string or number
field as it is; a string goes into `SensorID`, a number into `Value` when it
converts to `float64` and into `Timestamp` when it converts to `int64`;
every other combination is an `UnmarshalTypeError`. -/
def storeField (p : SensorPayload) (f : PayloadField) (v : JSONValue) :
    Except UnmarshalTypeError SensorPayload :=
  match v, f with
  | .null, _ => .ok p
  | .string s, .sensorId => .ok { p with SensorID := s }
  | .number (some x) _, .value => .ok { p with Value := x }
  | .number _ (some n), .timestamp => .ok { p with Timestamp := n }
  | _, _ => .error ⟨f.tag⟩

/-- The member loop of the object decoder.  A type error does not stop the
loop: the first one is saved and the remaining members are still decoded. -/
def decodeMembers (equalFold : String → String → Bool) :
    List (String × JSONValue) → SensorPayload → Option UnmarshalTypeError →
      SensorPayload × Option UnmarshalTypeError
  | [], p, saved => (p, saved)
  | (key, v) :: rest, p, saved =>
    match fieldForKey equalFold key with
    | none => decodeMembers equalFold rest p saved
    | some f =>
      match storeField p f v with
      | .ok q => decodeMembers equalFold rest q saved
      | .error e =>
        match saved with
        | some first => decodeMembers equalFold rest p (some first)
        | none => decodeMembers equalFold rest p (some e)

/-- The zero value of `SensorPayload`, what `var payload SensorPayload`
declares. -/
def zeroPayload : SensorPayload := { SensorID := "", Value := 0, Timestamp := 0 }

/-- The call `json.Unmarshal(data, &payload)` on a freshly declared `payload`,
for a valid JSON text `data` with value tree `v`: an object is decoded member
by member, `null` has no effect, and any other value is a type error.  The
saved error, if any, is what is returned. -/
def unmarshal (equalFold : String → String → Bool) (v : JSONValue) :
    Except UnmarshalTypeError SensorPayload :=
  match v with
  | .null => .ok zeroPayload
  | .object members =>
    match decodeMembers equalFold members zeroPayload none with
    | (p, none) => .ok p
    | (_, some e) => .error e
  | _ => .error ⟨""⟩

/-- Upper-casing of the ASCII letters of a string. -/
def asciiUpper (s : String) : String :=
  String.mk (s.data.map (fun c =>
    if 'a' ≤ c ∧ c ≤ 'z' then Char.ofNat (c.toNat - 32) else c))

/-- Equality after upper-casing the ASCII letters.  This is not the package's
comparison in general: the package also folds letters outside ASCII (the
long s `U+017F` matches `s`, the Kelvin sign `U+212A` matches `k`).  The two
agree when the key is made of ASCII characters only, and this comparison is
used below only at such keys, to have closed instances of theorems that are
stated for every `equalFold`. -/
def asciiEqualFold (name key : String) : Bool :=
  decide (asciiUpper name = asciiUpper key)

/-! ## Specification-side vocabulary

The definitions of this section are not translations of source functions:
they name the notions the specification uses, and the theorems below relate
them to the embedded code. -/

/-- What a resolved rule and a payload decide, in the specification's words
(§4.2 steps 3 and 4): a rule without `sensorIDFromPayload` rejects, a rule
with it requires a non-empty sensor ID in the payload. -/
def ruleOutcome (tm : TopicMap) (payload : SensorPayload) : Except String String :=
  if tm.SensorIDFromPayload then
    if payload.SensorID = "" then .error "sensorId not found in payload"
    else .ok payload.SensorID
  else .error "topic matched but sensor_id_from_payload not enabled"

/-- The specification's `resolve(topic)` (§4.2): the exact-match entry when
there is one, otherwise the first rule in configured order that the Topic
Matcher accepts. -/
def resolve (b : MQTTBridge) (topic : String) : Option TopicMap :=
  match b.topicMap topic with
  | some tm => some tm
  | none => b.config.Topics.find? (fun tm => matchTopic tm.MQTTTopic topic)

/-- The error one object member causes on its own: none when its key goes
into no field or its value is stored, the error of `storeField` otherwise,
that is, when the value has the wrong JSON type for the field or is a number
that does not convert to the field's `float64` or `int64`. -/
def memberTypeError (equalFold : String → String → Bool) (kv : String × JSONValue) :
    Option UnmarshalTypeError :=
  match fieldForKey equalFold kv.1 with
  | none => none
  | some f =>
    match storeField zeroPayload f kv.2 with
    | .ok _ => none
    | .error e => some e

/-- Joining segments with `/`, the inverse of `splitSegments`. -/
def joinSegments : List (List Char) → List Char
  | [] => []
  | [seg] => seg
  | seg :: next :: rest => seg ++ '/' :: joinSegments (next :: rest)

/-- The rules of a list that carry the pattern string `k`, in configured
order. -/
def rulesWithPattern (k : String) (topics : List TopicMap) : List TopicMap :=
  topics.filter (fun tm => decide (tm.MQTTTopic = k))

/-! ## Facts about `strings.Split` -/

theorem splitSegments_ne_nil (cs : List Char) : splitSegments cs ≠ [] := by
  cases cs with
  | nil => simp [splitSegments]
  | cons c cs =>
    simp only [splitSegments]
    split
    · simp
    · split <;> simp

theorem joinSegments_splitSegments (cs : List Char) :
    joinSegments (splitSegments cs) = cs := by
  induction cs with
  | nil => rfl
  | cons c cs ih =>
    simp only [splitSegments]
    split
    · next hc =>
      cases hs : splitSegments cs with
      | nil => exact absurd hs (splitSegments_ne_nil cs)
      | cons seg rest =>
        rw [hs] at ih
        simp [joinSegments, ih, hc]
    · cases hs : splitSegments cs with
      | nil => exact absurd hs (splitSegments_ne_nil cs)
      | cons seg rest =>
        rw [hs] at ih
        cases rest with
        | nil => simpa [joinSegments] using ih
        | cons next rest => simpa [joinSegments] using ih

theorem stringsSplit_injective {p t : String} (h : stringsSplit p = stringsSplit t) :
    p = t := by
  have hmk : Function.Injective String.mk := fun a b hab => by injection hab
  have h1 : splitSegments p.data = splitSegments t.data :=
    List.map_injective_iff.mpr hmk h
  have h2 := congrArg joinSegments h1
  rw [joinSegments_splitSegments, joinSegments_splitSegments] at h2
  exact String.ext h2

/-! ## The loop of `matchTopic` -/

/-- The loop returns `true` as soon as it reaches a `#` at offset `k`, when
the `k` segments before it are `+` or agree with the topic. -/
theorem matchTopicLoop_hash (P T : List String) :
    ∀ (rest : List String) (i k : Nat),
      rest[k]? = some "#" →
      (∀ j, j < k → rest[j]? ≠ some "#") →
      i + k ≤ T.length →
      (∀ j, j < k → rest[j]? = some "+" ∨ rest[j]? = T[i + j]?) →
      matchTopicLoop P T i rest = true := by
  intro rest
  induction rest with
  | nil => intro i k hk; simp at hk
  | cons part rest ih =>
    intro i k hk hfirst hlen hseg
    cases k with
    | zero =>
      have hp : part = "#" := by simpa using hk
      simp [matchTopicLoop, hp]
    | succ k =>
      have hne : part ≠ "#" := by simpa using hfirst 0 (Nat.succ_pos k)
      have hi : ¬ T.length ≤ i := by omega
      have hrec : matchTopicLoop P T (i + 1) rest = true := by
        apply ih (i + 1) k
        · simpa using hk
        · intro j hj
          simpa using hfirst (j + 1) (by omega)
        · omega
        · intro j hj
          have := hseg (j + 1) (by omega)
          simpa [Nat.add_assoc, Nat.add_comm 1 j] using this
      have h0 := hseg 0 (Nat.succ_pos k)
      simp only [matchTopicLoop, hne, hi, if_false, dite_false]
      by_cases hplus : part = "+"
      · simp [hplus, hrec]
      · have hget : T[i]? = some part := by
          rcases h0 with h0 | h0
          · exact absurd (by simpa using h0) hplus
          · simpa using h0.symm
        have hlt : i < T.length := by omega
        have heq : ¬ (part ≠ T.get ⟨i, Nat.lt_of_not_le hi⟩) := by
          rw [List.getElem?_eq_getElem hlt] at hget
          have : T[i] = part := by simpa using hget
          simp [this]
        rw [if_neg hplus, if_neg heq, hrec]

/-- Without `#` among the remaining pattern segments the loop returns `true`
exactly when the lengths agree and every remaining segment is `+` or equals
the topic segment at its index. -/
theorem matchTopicLoop_noHash (P T : List String) :
    ∀ (rest : List String) (i : Nat),
      (∀ seg ∈ rest, seg ≠ "#") →
      P.length = i + rest.length →
      (matchTopicLoop P T i rest = true ↔
        P.length = T.length ∧
          ∀ j, j < rest.length → rest[j]? = some "+" ∨ rest[j]? = T[i + j]?) := by
  intro rest
  induction rest with
  | nil =>
    intro i _ _
    simp [matchTopicLoop]
  | cons part rest ih =>
    intro i hno hlen
    have hne : part ≠ "#" := hno part (List.mem_cons_self _ _)
    have hno2 : ∀ seg ∈ rest, seg ≠ "#" := fun seg hs => hno seg (List.mem_cons_of_mem _ hs)
    have hlen2 : P.length = (i + 1) + rest.length := by simp at hlen; omega
    have ih2 := ih (i + 1) hno2 hlen2
    simp only [matchTopicLoop, hne, if_false]
    by_cases hi : T.length ≤ i
    · simp only [hi, dite_true]
      constructor
      · intro h; cases h
      · rintro ⟨h1, _⟩
        simp at hlen
        omega
    · have hlt : i < T.length := by omega
      simp only [hi, dite_false]
      have hstep : (∀ j, j < (part :: rest).length →
            (part :: rest)[j]? = some "+" ∨ (part :: rest)[j]? = T[i + j]?) ↔
          ((part = "+" ∨ part = T.get ⟨i, hlt⟩) ∧
            ∀ j, j < rest.length → rest[j]? = some "+" ∨ rest[j]? = T[i + 1 + j]?) := by
        constructor
        · intro h
          refine ⟨?_, ?_⟩
          · have h0 := h 0 (by simp)
            rcases h0 with h0 | h0
            · left; simpa using h0
            · right
              rw [Nat.add_zero, List.getElem?_eq_getElem hlt] at h0
              simpa using h0
          · intro j hj
            have hj1 := h (j + 1) (by simp; omega)
            simpa [Nat.add_assoc, Nat.add_comm 1 j] using hj1
        · rintro ⟨h0, h⟩ j hj
          cases j with
          | zero =>
            rcases h0 with h0 | h0
            · left; simp [h0]
            · right
              rw [Nat.add_zero, List.getElem?_eq_getElem hlt]
              simpa using h0
          | succ j =>
            have hj1 := h j (by simp at hj; omega)
            simpa [Nat.add_assoc, Nat.add_comm 1 j] using hj1
      rw [hstep]
      by_cases hplus : part = "+"
      · rw [if_pos hplus, ih2]
        constructor
        · rintro ⟨a, c⟩
          exact ⟨a, Or.inl hplus, c⟩
        · rintro ⟨a, _, c⟩
          exact ⟨a, c⟩
      · by_cases heq : part = T.get ⟨i, hlt⟩
        · rw [if_neg hplus, if_neg (not_not.mpr heq), ih2]
          constructor
          · rintro ⟨a, c⟩
            exact ⟨a, Or.inr heq, c⟩
          · rintro ⟨a, _, c⟩
            exact ⟨a, c⟩
        · rw [if_neg hplus, if_pos heq]
          constructor
          · intro h; cases h
          · rintro ⟨_, h | h, _⟩
            · exact absurd h hplus
            · exact absurd h heq

/-- The segment-wise reading of `matchTopic` for a pattern without `#`. -/
theorem matchTopic_iff_of_noHash (p t : String)
    (hno : ∀ seg ∈ stringsSplit p, seg ≠ "#") :
    matchTopic p t = true ↔
      (stringsSplit p).length = (stringsSplit t).length ∧
        ∀ j, j < (stringsSplit p).length →
          (stringsSplit p)[j]? = some "+" ∨ (stringsSplit p)[j]? = (stringsSplit t)[j]? := by
  have h := matchTopicLoop_noHash (stringsSplit p) (stringsSplit t) (stringsSplit p) 0 hno
    (by simp)
  simpa [matchTopic] using h

/-! ## Topic Matcher: claims C1, C2, C3 -/

/-- C1: for a pattern none of whose segments is `+` or `#`, `matchTopic`
holds of a topic exactly when pattern and topic are the same string. -/
theorem matchTopic_literal_iff_eq (p t : String)
    (hlit : ∀ seg ∈ stringsSplit p, seg ≠ "+" ∧ seg ≠ "#") :
    matchTopic p t = true ↔ p = t := by
  rw [matchTopic_iff_of_noHash p t (fun seg hs => (hlit seg hs).2)]
  constructor
  · rintro ⟨hlen, hseg⟩
    apply stringsSplit_injective
    apply List.ext_getElem?
    intro j
    by_cases hj : j < (stringsSplit p).length
    · rcases hseg j hj with h | h
      · have hmem : "+" ∈ stringsSplit p := List.getElem?_mem h
        exact absurd rfl (hlit "+" hmem).1
      · exact h
    · have h1 : (stringsSplit p)[j]? = none := List.getElem?_eq_none (by omega)
      have h2 : (stringsSplit t)[j]? = none := List.getElem?_eq_none (by omega)
      rw [h1, h2]
  · intro h
    subst h
    exact ⟨rfl, fun j _ => Or.inr rfl⟩

/-- C1, at the pattern `sensors/A1/temp`: it matches the identical topic and
no other topic. -/
theorem matchTopic_literal_iff_eq_witness :
    (∀ seg ∈ stringsSplit "sensors/A1/temp", seg ≠ "+" ∧ seg ≠ "#") ∧
      (matchTopic "sensors/A1/temp" "sensors/A1/temp" = true ↔
        "sensors/A1/temp" = "sensors/A1/temp") :=
  ⟨by decide, matchTopic_literal_iff_eq "sensors/A1/temp" "sensors/A1/temp" (by decide)⟩

/-- C2: when the first `#` of the pattern stands at index `i`, the topic has
at least `i` segments and each of the first `i` pattern segments is `+` or
equals the topic segment at its index, `matchTopic` is true, whatever follows
position `i` in the topic (nothing included) and in the pattern; so
`sensors/#` matches `sensors/A1/temp` and `sensors`. -/
theorem matchTopic_hash_matches :
    (∀ (p t : String) (i : Nat),
      (stringsSplit p)[i]? = some "#" →
      (∀ j, j < i → (stringsSplit p)[j]? ≠ some "#") →
      i ≤ (stringsSplit t).length →
      (∀ j, j < i →
        (stringsSplit p)[j]? = some "+" ∨ (stringsSplit p)[j]? = (stringsSplit t)[j]?) →
      matchTopic p t = true) ∧
    matchTopic "sensors/#" "sensors/A1/temp" = true ∧
    matchTopic "sensors/#" "sensors" = true := by
  refine ⟨?_, by decide, by decide⟩
  intro p t i hi hfirst hlen hseg
  exact matchTopicLoop_hash (stringsSplit p) (stringsSplit t) (stringsSplit p) 0 i hi hfirst
    (by omega) (by simpa using hseg)

/-- C2, at pattern `+/b/#/x/#` and topic `a/b`: the first `#` is at index 2,
the topic has exactly two segments, and the match succeeds. -/
theorem matchTopic_hash_matches_witness :
    (stringsSplit "+/b/#/x/#")[2]? = some "#" ∧
      2 ≤ (stringsSplit "a/b").length ∧ matchTopic "+/b/#/x/#" "a/b" = true :=
  ⟨by decide, by decide,
    matchTopic_hash_matches.1 "+/b/#/x/#" "a/b" 2 (by decide) (by decide) (by decide)
      (by decide)⟩

/-- C3: for a pattern with no `#` segment, `matchTopic` is true exactly when
pattern and topic have the same number of segments and every pattern segment
is `+` or equals the topic segment at its index; `+` takes exactly one topic
segment of any content, the empty one included. -/
theorem matchTopic_noHash_iff :
    (∀ (p t : String), (∀ seg ∈ stringsSplit p, seg ≠ "#") →
      (matchTopic p t = true ↔
        (stringsSplit p).length = (stringsSplit t).length ∧
          ∀ j, j < (stringsSplit p).length →
            (stringsSplit p)[j]? = some "+" ∨
              (stringsSplit p)[j]? = (stringsSplit t)[j]?)) ∧
    matchTopic "sensors/+/temp" "sensors/A1/temp" = true ∧
    matchTopic "sensors/+/temp" "sensors/A1/B2/temp" = false ∧
    matchTopic "a/+" "a" = false ∧
    matchTopic "a/+" "a/" = true :=
  ⟨matchTopic_iff_of_noHash, by decide, by decide, by decide, by decide⟩

/-- C3, at pattern `home/+/reading` and topic `home/kitchen/reading`. -/
theorem matchTopic_noHash_iff_witness :
    (∀ seg ∈ stringsSplit "home/+/reading", seg ≠ "#") ∧
      (matchTopic "home/+/reading" "home/kitchen/reading" = true ↔
        (stringsSplit "home/+/reading").length = (stringsSplit "home/kitchen/reading").length ∧
          ∀ j, j < (stringsSplit "home/+/reading").length →
            (stringsSplit "home/+/reading")[j]? = some "+" ∨
              (stringsSplit "home/+/reading")[j]? =
                (stringsSplit "home/kitchen/reading")[j]?) :=
  ⟨by decide, matchTopic_noHash_iff.1 "home/+/reading" "home/kitchen/reading" (by decide)⟩

/-! ## The exact-match map -/

theorem buildTopicMap_append_singleton (topics : List TopicMap) (tm : TopicMap) :
    buildTopicMap (topics ++ [tm]) = mapAssign (buildTopicMap topics) tm.MQTTTopic tm := by
  simp [buildTopicMap, List.foldl_append]

/-- The map built from a rule list sends a key to the last rule carrying it. -/
theorem buildTopicMap_eq_getLast? (topics : List TopicMap) (k : String) :
    buildTopicMap topics k = (rulesWithPattern k topics).getLast? := by
  induction topics using List.reverseRecOn with
  | nil => rfl
  | append_singleton l a ih =>
    rw [buildTopicMap_append_singleton]
    simp only [mapAssign, rulesWithPattern, List.filter_append]
    by_cases h : k = a.MQTTTopic
    · subst h
      simp [List.filter_cons]
    · have h2 : ¬ a.MQTTTopic = k := fun e => h e.symm
      have hnil : List.filter (fun tm => decide (tm.MQTTTopic = k)) [a] = [] := by
        simp [List.filter_cons, h2]
      rw [if_neg h, hnil, List.append_nil]
      exact ih

theorem rulesWithPattern_last (k : String) (pre post : List TopicMap) (tm : TopicMap)
    (hk : tm.MQTTTopic = k) (hpost : ∀ r ∈ post, r.MQTTTopic ≠ k) :
    (rulesWithPattern k (pre ++ tm :: post)).getLast? = some tm := by
  have hnil : post.filter (fun r => decide (r.MQTTTopic = k)) = [] := by
    rw [List.filter_eq_nil_iff]
    intro r hr
    simpa using hpost r hr
  simp [rulesWithPattern, List.filter_append, List.filter_cons, hk, hnil]

theorem buildTopicMap_isSome_iff (topics : List TopicMap) (k : String) :
    (buildTopicMap topics k).isSome = true ↔ ∃ tm ∈ topics, tm.MQTTTopic = k := by
  rw [buildTopicMap_eq_getLast?]
  constructor
  · intro h
    obtain ⟨tm, htm⟩ := Option.isSome_iff_exists.mp h
    have hmem : tm ∈ rulesWithPattern k topics := List.mem_of_getLast?_eq_some htm
    simp only [rulesWithPattern, List.mem_filter, decide_eq_true_eq] at hmem
    exact ⟨tm, hmem.1, hmem.2⟩
  · rintro ⟨tm, hmem, hk⟩
    have hin : tm ∈ rulesWithPattern k topics := by
      simp [rulesWithPattern, List.mem_filter, hmem, hk]
    cases hl : (rulesWithPattern k topics).getLast? with
    | none =>
      rw [List.getLast?_eq_none_iff] at hl
      rw [hl] at hin
      cases hin
    | some _ => rfl

/-! ## `getSensorID` in terms of the resolved rule -/

theorem getSensorIDScan_eq_find? (topic : String) (payload : SensorPayload)
    (topics : List TopicMap) :
    getSensorIDScan topic payload topics =
      match topics.find? (fun tm => matchTopic tm.MQTTTopic topic) with
      | some tm => ruleOutcome tm payload
      | none => .error ("no mapping found for topic: " ++ topic) := by
  induction topics with
  | nil => rfl
  | cons tm rest ih =>
    by_cases h : matchTopic tm.MQTTTopic topic = true
    · simp [getSensorIDScan, List.find?_cons, h, ruleOutcome]
    · simp only [Bool.not_eq_true] at h
      simp [getSensorIDScan, List.find?_cons, h, ih]

theorem getSensorID_of_exact (b : MQTTBridge) (topic : String) (payload : SensorPayload)
    (tm : TopicMap) (h : b.topicMap topic = some tm) :
    getSensorID b topic payload = ruleOutcome tm payload := by
  simp [getSensorID, h, ruleOutcome]

theorem getSensorID_eq_resolve (b : MQTTBridge) (topic : String) (payload : SensorPayload) :
    getSensorID b topic payload =
      match resolve b topic with
      | some tm => ruleOutcome tm payload
      | none => .error ("no mapping found for topic: " ++ topic) := by
  cases h : b.topicMap topic with
  | some tm => simp [resolve, h, getSensorID_of_exact b topic payload tm h]
  | none =>
    simp only [getSensorID, resolve, h]
    exact getSensorIDScan_eq_find? topic payload b.config.Topics

/-! ## The three error texts -/

theorem noMapping_ne_notEnabled (topic : String) :
    "no mapping found for topic: " ++ topic ≠
      "topic matched but sensor_id_from_payload not enabled" := by
  intro h
  have hd := congrArg String.data h
  simp [String.data_append] at hd

theorem noMapping_ne_notInPayload (topic : String) :
    "no mapping found for topic: " ++ topic ≠ "sensorId not found in payload" := by
  intro h
  have hd := congrArg String.data h
  simp [String.data_append] at hd

theorem notEnabled_ne_notInPayload :
    "topic matched but sensor_id_from_payload not enabled" ≠ "sensorId not found in payload" := by
  decide

/-- The case analysis of `getSensorID` on the resolved rule, for any bridge. -/
theorem getSensorID_cases (b : MQTTBridge) (topic : String) (payload : SensorPayload) :
    (getSensorID b topic payload = .error ("no mapping found for topic: " ++ topic) ↔
      resolve b topic = none) ∧
    (getSensorID b topic payload =
        .error "topic matched but sensor_id_from_payload not enabled" ↔
      ∃ tm, resolve b topic = some tm ∧ tm.SensorIDFromPayload = false) ∧
    (getSensorID b topic payload = .error "sensorId not found in payload" ↔
      ∃ tm, resolve b topic = some tm ∧ tm.SensorIDFromPayload = true ∧
        payload.SensorID = "") ∧
    (getSensorID b topic payload = .ok payload.SensorID ↔
      ∃ tm, resolve b topic = some tm ∧ tm.SensorIDFromPayload = true ∧
        payload.SensorID ≠ "") ∧
    (∀ sid, getSensorID b topic payload = .ok sid → sid = payload.SensorID) ∧
    (∀ e, getSensorID b topic payload = .error e →
      e = "no mapping found for topic: " ++ topic ∨
      e = "topic matched but sensor_id_from_payload not enabled" ∨
      e = "sensorId not found in payload") := by
  have h1 := noMapping_ne_notEnabled topic
  have h2 := noMapping_ne_notInPayload topic
  have h3 := notEnabled_ne_notInPayload
  rw [getSensorID_eq_resolve]
  cases hr : resolve b topic with
  | none =>
    refine ⟨by simp, ?_, ?_, by simp, ?_, ?_⟩
    · simpa using h1
    · simpa using h2
    · intro sid h; cases h
    · intro e h
      left
      simpa using h.symm
  | some tm =>
    cases hf : tm.SensorIDFromPayload with
    | false =>
      refine ⟨?_, ?_, ?_, ?_, ?_, ?_⟩
      · simpa [ruleOutcome, hf] using h1.symm
      · simp [ruleOutcome, hf]
      · simp [ruleOutcome, hf]
      · simp [ruleOutcome, hf]
      · intro sid h; simp [ruleOutcome, hf] at h
      · intro e h
        right; left
        simpa [ruleOutcome, hf] using h.symm
    | true =>
      by_cases hs : payload.SensorID = ""
      · refine ⟨?_, ?_, ?_, ?_, ?_, ?_⟩
        · simpa [ruleOutcome, hf, hs] using h2.symm
        · simp [ruleOutcome, hf, hs]
        · simp [ruleOutcome, hf, hs]
        · simp [ruleOutcome, hf, hs]
        · intro sid h; simp [ruleOutcome, hf, hs] at h
        · intro e h
          right; right
          simpa [ruleOutcome, hf, hs] using h.symm
      · refine ⟨?_, ?_, ?_, ?_, ?_, ?_⟩
        · simp [ruleOutcome, hf, hs]
        · simp [ruleOutcome, hf, hs]
        · simp [ruleOutcome, hf, hs]
        · simp [ruleOutcome, hf, hs]
        · intro sid h
          simpa [ruleOutcome, hf, hs] using h.symm
        · intro e h; simp [ruleOutcome, hf, hs] at h

/-! ## Dispatch Engine: claims C4, C5, C6, C7, C10 -/

/-- C4: when the topic equals the pattern string of some configured rule,
the exact-match map holds a configured rule `tm` with that pattern under the
topic, and `getSensorID` returns what `tm.SensorIDFromPayload` and the
payload decide; the result is the same for every other rule list with the
same rules of that exact pattern, whatever further rules it has and wherever
they stand. -/
theorem getSensorID_exact_priority (config : Config) (t : String) (payload : SensorPayload)
    (hex : ∃ r ∈ config.Topics, r.MQTTTopic = t) :
    (∃ tm, (NewMQTTBridge config).topicMap t = some tm ∧ tm ∈ config.Topics ∧
      tm.MQTTTopic = t ∧
      getSensorID (NewMQTTBridge config) t payload = ruleOutcome tm payload) ∧
    (∀ other : Config,
      rulesWithPattern t other.Topics = rulesWithPattern t config.Topics →
      getSensorID (NewMQTTBridge other) t payload =
        getSensorID (NewMQTTBridge config) t payload) := by
  have hsome := (buildTopicMap_isSome_iff config.Topics t).mpr hex
  obtain ⟨tm, htm⟩ := Option.isSome_iff_exists.mp hsome
  have hlast : (rulesWithPattern t config.Topics).getLast? = some tm := by
    rw [← buildTopicMap_eq_getLast?]; exact htm
  have hmem : tm ∈ rulesWithPattern t config.Topics := List.mem_of_getLast?_eq_some hlast
  simp only [rulesWithPattern, List.mem_filter, decide_eq_true_eq] at hmem
  have hcfg : getSensorID (NewMQTTBridge config) t payload = ruleOutcome tm payload :=
    getSensorID_of_exact _ t payload tm htm
  refine ⟨⟨tm, htm, hmem.1, hmem.2, hcfg⟩, ?_⟩
  intro other hsame
  have hother : (NewMQTTBridge other).topicMap t = some tm := by
    show buildTopicMap other.Topics t = some tm
    rw [buildTopicMap_eq_getLast?, hsame]
    exact hlast
  rw [hcfg, getSensorID_of_exact _ t payload tm hother]

/-- C4, on the list `[sensors/#, sensors/a, +/a]` whose rejecting exact rule
stands between two accepting wildcard rules that match the topic
`sensors/a`. -/
theorem getSensorID_exact_priority_witness :
    (∃ r ∈ (Config.mk [⟨"sensors/#", true, ""⟩, ⟨"sensors/a", false, ""⟩,
        ⟨"+/a", true, ""⟩]).Topics, r.MQTTTopic = "sensors/a") ∧
    getSensorID (NewMQTTBridge ⟨[⟨"sensors/a", false, ""⟩]⟩) "sensors/a" ⟨"s1", 1, 0⟩ =
      getSensorID (NewMQTTBridge ⟨[⟨"sensors/#", true, ""⟩, ⟨"sensors/a", false, ""⟩,
        ⟨"+/a", true, ""⟩]⟩) "sensors/a" ⟨"s1", 1, 0⟩ :=
  ⟨⟨⟨"sensors/a", false, ""⟩, by decide, rfl⟩,
    ((getSensorID_exact_priority
      ⟨[⟨"sensors/#", true, ""⟩, ⟨"sensors/a", false, ""⟩, ⟨"+/a", true, ""⟩]⟩
      "sensors/a" ⟨"s1", 1, 0⟩ ⟨⟨"sensors/a", false, ""⟩, by decide, rfl⟩).2
      ⟨[⟨"sensors/a", false, ""⟩]⟩ (by decide))⟩

/-- C5: when the topic equals no configured pattern string, `getSensorID`
returns what the first rule in configured order accepted by `matchTopic`
decides with the payload (the `no mapping found` error when there is none);
the rules after it have no influence. -/
theorem getSensorID_first_match (config : Config) (t : String) (payload : SensorPayload)
    (hne : ∀ r ∈ config.Topics, r.MQTTTopic ≠ t) :
    (getSensorID (NewMQTTBridge config) t payload =
      match config.Topics.find? (fun tm => matchTopic tm.MQTTTopic t) with
      | some tm => ruleOutcome tm payload
      | none => .error ("no mapping found for topic: " ++ t)) ∧
    (∀ (pre post : List TopicMap) (tm : TopicMap),
      config.Topics = pre ++ tm :: post →
      (∀ r ∈ pre, matchTopic r.MQTTTopic t = false) →
      matchTopic tm.MQTTTopic t = true →
      getSensorID (NewMQTTBridge config) t payload = ruleOutcome tm payload) := by
  have hnone : (NewMQTTBridge config).topicMap t = none := by
    cases h : (NewMQTTBridge config).topicMap t with
    | none => rfl
    | some tm =>
      have hs : (buildTopicMap config.Topics t).isSome = true := by
        have h2 : buildTopicMap config.Topics t = some tm := h
        simp [h2]
      obtain ⟨r, hr, hrt⟩ := (buildTopicMap_isSome_iff config.Topics t).mp hs
      exact absurd hrt (hne r hr)
  have hmain : getSensorID (NewMQTTBridge config) t payload =
      match config.Topics.find? (fun tm => matchTopic tm.MQTTTopic t) with
      | some tm => ruleOutcome tm payload
      | none => .error ("no mapping found for topic: " ++ t) := by
    rw [getSensorID_eq_resolve]
    simp only [resolve, hnone]
    rfl
  refine ⟨hmain, ?_⟩
  intro pre post tm hsplit hpre htm
  have hfind : config.Topics.find? (fun tm => matchTopic tm.MQTTTopic t) = some tm := by
    rw [hsplit, List.find?_append]
    have hp : pre.find? (fun tm => matchTopic tm.MQTTTopic t) = none := by
      rw [List.find?_eq_none]
      intro r hr
      simp [hpre r hr]
    simp [hp, List.find?_cons, htm]
  rw [hmain, hfind]

/-- C5, on the list `[home/+/reading, home/#]` and the topic
`home/kitchen/reading`: the first matching rule rejects and the accepting
rule after it is not consulted. -/
theorem getSensorID_first_match_witness :
    (∀ r ∈ (Config.mk [⟨"home/+/reading", false, ""⟩, ⟨"home/#", true, ""⟩]).Topics,
      r.MQTTTopic ≠ "home/kitchen/reading") ∧
    getSensorID (NewMQTTBridge ⟨[⟨"home/+/reading", false, ""⟩, ⟨"home/#", true, ""⟩]⟩)
      "home/kitchen/reading" ⟨"kitchen-01", 1, 0⟩ =
      .error "topic matched but sensor_id_from_payload not enabled" :=
  ⟨by decide,
    ((getSensorID_first_match ⟨[⟨"home/+/reading", false, ""⟩, ⟨"home/#", true, ""⟩]⟩
      "home/kitchen/reading" ⟨"kitchen-01", 1, 0⟩ (by decide)).2
      [] [⟨"home/#", true, ""⟩] ⟨"home/+/reading", false, ""⟩ rfl (by decide) (by decide))⟩

/-- C6: when `getSensorID` returns without error the returned sensor ID is
non-empty and is the payload's `SensorID`; for a payload whose `SensorID` is
empty it returns an error for every topic and rule list, and
`messageHandler` makes no Forwarder call. -/
theorem getSensorID_ok_nonempty (config : Config) (topic : String) (payload : SensorPayload) :
    (∀ sid, getSensorID (NewMQTTBridge config) topic payload = .ok sid →
      sid ≠ "" ∧ sid = payload.SensorID) ∧
    (payload.SensorID = "" →
      (∃ e, getSensorID (NewMQTTBridge config) topic payload = .error e) ∧
      ∀ (now : Int) (send : String → Float → Int → Option String),
        forwarderCalls (messageHandler (NewMQTTBridge config) topic
          (Except.ok payload : Except String SensorPayload) now send) = []) := by
  obtain ⟨_, _, _, hok, hsid, _⟩ := getSensorID_cases (NewMQTTBridge config) topic payload
  constructor
  · intro sid h
    have hs := hsid sid h
    subst hs
    obtain ⟨tm, _, _, hne⟩ := hok.mp h
    exact ⟨hne, rfl⟩
  · intro hempty
    have herr : ∃ e, getSensorID (NewMQTTBridge config) topic payload = .error e := by
      cases h : getSensorID (NewMQTTBridge config) topic payload with
      | error e => exact ⟨e, rfl⟩
      | ok sid =>
        have hs := hsid sid h
        subst hs
        obtain ⟨tm, _, _, hne⟩ := hok.mp h
        exact absurd hempty hne
    refine ⟨herr, ?_⟩
    intro now send
    obtain ⟨e, he⟩ := herr
    simp [messageHandler, he, forwarderCalls]

/-- C6, on a payload with an empty sensor ID under an accepting rule. -/
theorem getSensorID_ok_nonempty_witness :
    (SensorPayload.mk "" 21.5 0).SensorID = "" ∧
    ∃ e, getSensorID (NewMQTTBridge ⟨[⟨"home/+/reading", true, ""⟩]⟩)
      "home/kitchen/reading" ⟨"", 21.5, 0⟩ = .error e :=
  ⟨rfl, ((getSensorID_ok_nonempty ⟨[⟨"home/+/reading", true, ""⟩]⟩
    "home/kitchen/reading" ⟨"", 21.5, 0⟩).2 rfl).1⟩

/-- C7: `getSensorID` fails with exactly one of three distinct errors,
characterised by the resolved rule (`resolve`): `no mapping found` exactly
when no rule resolves, `sensor_id_from_payload not enabled` exactly when the
resolved rule has the flag off (whatever the payload), `sensorId not found in
payload` exactly when the flag is on and the payload's sensor ID is empty; it
succeeds exactly in the remaining case. -/
theorem getSensorID_error_taxonomy (config : Config) (topic : String)
    (payload : SensorPayload) :
    (getSensorID (NewMQTTBridge config) topic payload =
        .error ("no mapping found for topic: " ++ topic) ↔
      resolve (NewMQTTBridge config) topic = none) ∧
    (getSensorID (NewMQTTBridge config) topic payload =
        .error "topic matched but sensor_id_from_payload not enabled" ↔
      ∃ tm, resolve (NewMQTTBridge config) topic = some tm ∧
        tm.SensorIDFromPayload = false) ∧
    (getSensorID (NewMQTTBridge config) topic payload =
        .error "sensorId not found in payload" ↔
      ∃ tm, resolve (NewMQTTBridge config) topic = some tm ∧
        tm.SensorIDFromPayload = true ∧ payload.SensorID = "") ∧
    ((∃ sid, getSensorID (NewMQTTBridge config) topic payload = .ok sid) ↔
      ∃ tm, resolve (NewMQTTBridge config) topic = some tm ∧
        tm.SensorIDFromPayload = true ∧ payload.SensorID ≠ "") ∧
    (∀ e, getSensorID (NewMQTTBridge config) topic payload = .error e →
      e = "no mapping found for topic: " ++ topic ∨
      e = "topic matched but sensor_id_from_payload not enabled" ∨
      e = "sensorId not found in payload") ∧
    ("no mapping found for topic: " ++ topic ≠
        "topic matched but sensor_id_from_payload not enabled" ∧
      "no mapping found for topic: " ++ topic ≠ "sensorId not found in payload" ∧
      "topic matched but sensor_id_from_payload not enabled" ≠
        "sensorId not found in payload") := by
  obtain ⟨h1, h2, h3, hok, hsid, herr⟩ :=
    getSensorID_cases (NewMQTTBridge config) topic payload
  refine ⟨h1, h2, h3, ?_, herr, noMapping_ne_notEnabled topic,
    noMapping_ne_notInPayload topic, notEnabled_ne_notInPayload⟩
  constructor
  · rintro ⟨sid, h⟩
    have hs := hsid sid h
    subst hs
    exact hok.mp h
  · intro h
    exact ⟨payload.SensorID, hok.mpr h⟩

/-- C7, on a rejecting rule and a payload that carries a sensor ID: the
error is the policy rejection. -/
theorem getSensorID_error_taxonomy_witness :
    getSensorID (NewMQTTBridge ⟨[⟨"home/+/reading", false, ""⟩]⟩)
      "home/kitchen/reading" ⟨"kitchen-01", 21.5, 0⟩ =
      .error "topic matched but sensor_id_from_payload not enabled" :=
  (getSensorID_error_taxonomy ⟨[⟨"home/+/reading", false, ""⟩]⟩
    "home/kitchen/reading" ⟨"kitchen-01", 21.5, 0⟩).2.1.mpr
    ⟨⟨"home/+/reading", false, ""⟩, by decide, rfl⟩

/-- C10: the exact-match map built by `NewMQTTBridge` has as keys exactly the
configured pattern strings and sends each key to the last rule in configured
order carrying that pattern; `getSensorID` on a topic equal to a pattern
configured several times follows the last such rule. -/
theorem topicMap_last_duplicate (config : Config) :
    (∀ k, ((NewMQTTBridge config).topicMap k).isSome = true ↔
      ∃ tm ∈ config.Topics, tm.MQTTTopic = k) ∧
    (∀ k, (NewMQTTBridge config).topicMap k = (rulesWithPattern k config.Topics).getLast?) ∧
    (∀ (pre post : List TopicMap) (tm : TopicMap),
      config.Topics = pre ++ tm :: post →
      (∀ r ∈ post, r.MQTTTopic ≠ tm.MQTTTopic) →
      (NewMQTTBridge config).topicMap tm.MQTTTopic = some tm ∧
      ∀ payload, getSensorID (NewMQTTBridge config) tm.MQTTTopic payload =
        ruleOutcome tm payload) := by
  refine ⟨fun k => buildTopicMap_isSome_iff config.Topics k,
    fun k => buildTopicMap_eq_getLast? config.Topics k, ?_⟩
  intro pre post tm hsplit hpost
  have hmap : (NewMQTTBridge config).topicMap tm.MQTTTopic = some tm := by
    show buildTopicMap config.Topics tm.MQTTTopic = some tm
    rw [buildTopicMap_eq_getLast?, hsplit]
    exact rulesWithPattern_last tm.MQTTTopic pre post tm rfl hpost
  exact ⟨hmap, fun payload => getSensorID_of_exact _ _ payload tm hmap⟩

/-- C10, on the list `[a/b accepting, a/b rejecting]`: the topic `a/b` is
rejected, as the last duplicate says, although the first one accepts. -/
theorem topicMap_last_duplicate_witness :
    getSensorID (NewMQTTBridge ⟨[⟨"a/b", true, "first"⟩, ⟨"a/b", false, "last"⟩]⟩)
      "a/b" ⟨"s1", 1, 0⟩ =
      .error "topic matched but sensor_id_from_payload not enabled" :=
  ((topicMap_last_duplicate ⟨[⟨"a/b", true, "first"⟩, ⟨"a/b", false, "last"⟩]⟩).2.2
    [⟨"a/b", true, "first"⟩] [] ⟨"a/b", false, "last"⟩ rfl (by decide)).2 ⟨"s1", 1, 0⟩

/-! ## `messageHandler`: claim C8 -/

/-- The Forwarder calls of one `messageHandler` run, by cases on decoding and
on `getSensorID`. -/
theorem forwarderCalls_messageHandler {ε : Type} (b : MQTTBridge) (topic : String)
    (decoded : Except ε SensorPayload) (now : Int)
    (send : String → Float → Int → Option String) :
    forwarderCalls (messageHandler b topic decoded now send) =
      match decoded with
      | .error _ => []
      | .ok payload =>
        match getSensorID b topic payload with
        | .error _ => []
        | .ok sensorID =>
          [(sensorID, payload.Value, if payload.Timestamp = 0 then now else payload.Timestamp)] := by
  cases decoded with
  | error e => simp [messageHandler, forwarderCalls]
  | ok payload =>
    cases hg : getSensorID b topic payload with
    | error e => simp [messageHandler, hg, forwarderCalls]
    | ok sensorID =>
      by_cases hz : payload.Timestamp = 0
      · cases hs : send sensorID payload.Value now <;>
          simp [messageHandler, hg, hz, hs, forwarderCalls]
      · cases hs : send sensorID payload.Value payload.Timestamp <;>
          simp [messageHandler, hg, hz, hs, forwarderCalls]

/-- C8: one run of `messageHandler` calls the Forwarder at most once; it
calls it exactly when decoding and `getSensorID` both succeed, and then with
`(payload.SensorID, payload.Value, ts)` where `ts` is `payload.Timestamp`
when that is non-zero and `now` otherwise.  The rule `home/+/reading` with
the topic `home/kitchen/reading` and the payload `kitchen-01`, `21.5`, no
timestamp gives the single call `(kitchen-01, 21.5, now)`. -/
theorem messageHandler_forwards_once :
    (∀ (ε : Type) (config : Config) (topic : String) (decoded : Except ε SensorPayload)
        (now : Int) (send : String → Float → Int → Option String),
      (forwarderCalls (messageHandler (NewMQTTBridge config) topic decoded now send)).length
          ≤ 1 ∧
      (forwarderCalls (messageHandler (NewMQTTBridge config) topic decoded now send) ≠ [] ↔
        ∃ payload sid, decoded = .ok payload ∧
          getSensorID (NewMQTTBridge config) topic payload = .ok sid) ∧
      (∀ payload sid, decoded = .ok payload →
        getSensorID (NewMQTTBridge config) topic payload = .ok sid →
        forwarderCalls (messageHandler (NewMQTTBridge config) topic decoded now send) =
          [(payload.SensorID, payload.Value,
            if payload.Timestamp = 0 then now else payload.Timestamp)])) ∧
    (∀ (now : Int) (send : String → Float → Int → Option String),
      forwarderCalls (messageHandler (NewMQTTBridge ⟨[⟨"home/+/reading", true, ""⟩]⟩)
        "home/kitchen/reading"
        (Except.ok ⟨"kitchen-01", 21.5, 0⟩ : Except String SensorPayload) now send) =
      [("kitchen-01", 21.5, now)]) := by
  constructor
  · intro ε config topic decoded now send
    rw [forwarderCalls_messageHandler]
    cases decoded with
    | error e => simp
    | ok payload =>
      cases hg : getSensorID (NewMQTTBridge config) topic payload with
      | error e =>
        simp only [hg]
        refine ⟨by simp, by simp [hg], ?_⟩
        intro p sid hp hsid
        cases hp
        rw [hg] at hsid
        cases hsid
      | ok sensorID =>
        have hs := (getSensorID_cases (NewMQTTBridge config) topic payload).2.2.2.2.1
          sensorID hg
        simp only [hg]
        refine ⟨by simp, ?_, ?_⟩
        · simp only [ne_eq, List.cons_ne_nil, not_false_eq_true, true_iff]
          exact ⟨payload, sensorID, rfl, hg⟩
        · intro p sid hp _
          cases hp
          rw [hs]
  · intro now send
    rw [forwarderCalls_messageHandler]
    have hg : getSensorID (NewMQTTBridge ⟨[⟨"home/+/reading", true, ""⟩]⟩)
        "home/kitchen/reading" ⟨"kitchen-01", 21.5, 0⟩ = .ok "kitchen-01" := by
      rfl
    simp [hg]

/-- C8, on the same rule with a payload that carries its own timestamp: the
single call passes that timestamp and not the clock. -/
theorem messageHandler_forwards_once_witness :
    forwarderCalls (messageHandler (NewMQTTBridge ⟨[⟨"home/+/reading", true, ""⟩]⟩)
      "home/kitchen/reading"
      (Except.ok ⟨"kitchen-01", 21.5, 1700000000000⟩ : Except String SensorPayload)
      1800000000000 (fun _ _ _ => none)) =
    [("kitchen-01", 21.5, 1700000000000)] :=
  (messageHandler_forwards_once.1 String ⟨[⟨"home/+/reading", true, ""⟩]⟩
    "home/kitchen/reading"
    (Except.ok ⟨"kitchen-01", 21.5, 1700000000000⟩) 1800000000000 (fun _ _ _ => none)).2.2
    ⟨"kitchen-01", 21.5, 1700000000000⟩ "kitchen-01" rfl rfl

/-! ## Payload decoding: claim C9 -/

theorem storeField_error_iff (p q : SensorPayload) (f : PayloadField) (v : JSONValue)
    (e : UnmarshalTypeError) :
    storeField p f v = .error e ↔ storeField q f v = .error e := by
  cases v with
  | number x n =>
    cases f <;> cases x <;> cases n <;> simp [storeField]
  | null => cases f <;> simp [storeField]
  | bool b => cases f <;> simp [storeField]
  | string str => cases f <;> simp [storeField]
  | array elems => cases f <;> simp [storeField]
  | object members => cases f <;> simp [storeField]

theorem storeField_value_eq (p q : SensorPayload) (f : PayloadField) (v : JSONValue)
    (hf : f ≠ .value) (h : storeField p f v = .ok q) : q.Value = p.Value := by
  cases v with
  | number x n =>
    cases f <;> cases x <;> cases n <;> simp [storeField] at h <;>
      first
        | exact absurd rfl hf
        | (subst h; rfl)
  | null => cases f <;> simp [storeField] at h <;> (subst h; rfl)
  | bool b => cases f <;> simp [storeField] at h
  | string str =>
    cases f <;> simp [storeField] at h
    subst h; rfl
  | array elems => cases f <;> simp [storeField] at h
  | object members => cases f <;> simp [storeField] at h

theorem decodeMembers_cons_skip (equalFold : String → String → Bool) (key : String)
    (v : JSONValue) (rest : List (String × JSONValue)) (p : SensorPayload)
    (saved : Option UnmarshalTypeError) (hk : fieldForKey equalFold key = none) :
    decodeMembers equalFold ((key, v) :: rest) p saved =
      decodeMembers equalFold rest p saved := by
  simp [decodeMembers, hk]

theorem decodeMembers_cons_ok (equalFold : String → String → Bool) (key : String)
    (v : JSONValue) (rest : List (String × JSONValue)) (p q : SensorPayload)
    (saved : Option UnmarshalTypeError) (f : PayloadField)
    (hk : fieldForKey equalFold key = some f) (hs : storeField p f v = .ok q) :
    decodeMembers equalFold ((key, v) :: rest) p saved =
      decodeMembers equalFold rest q saved := by
  simp [decodeMembers, hk, hs]

theorem decodeMembers_cons_error (equalFold : String → String → Bool) (key : String)
    (v : JSONValue) (rest : List (String × JSONValue)) (p : SensorPayload)
    (saved : Option UnmarshalTypeError) (f : PayloadField) (e : UnmarshalTypeError)
    (hk : fieldForKey equalFold key = some f) (hs : storeField p f v = .error e) :
    decodeMembers equalFold ((key, v) :: rest) p saved =
      decodeMembers equalFold rest p (some (saved.getD e)) := by
  cases saved <;> simp [decodeMembers, hk, hs]

/-- The error the member loop ends with: the one it started with, otherwise
that of the first member of the wrong type. -/
theorem decodeMembers_saved (equalFold : String → String → Bool) :
    ∀ (members : List (String × JSONValue)) (p : SensorPayload)
      (saved : Option UnmarshalTypeError),
      (decodeMembers equalFold members p saved).2 =
        match saved with
        | some first => some first
        | none => members.findSome? (memberTypeError equalFold) := by
  intro members
  induction members with
  | nil => intro p saved; cases saved <;> rfl
  | cons kv rest ih =>
    intro p saved
    obtain ⟨key, v⟩ := kv
    cases hk : fieldForKey equalFold key with
    | none =>
      have hm : memberTypeError equalFold (key, v) = none := by
        simp [memberTypeError, hk]
      rw [decodeMembers_cons_skip equalFold key v rest p saved hk, ih,
        List.findSome?_cons, hm]
    | some f =>
      cases hs : storeField p f v with
      | ok q =>
        have hm : memberTypeError equalFold (key, v) = none := by
          cases hz : storeField zeroPayload f v with
          | ok z => simp [memberTypeError, hk, hz]
          | error e =>
            rw [storeField_error_iff zeroPayload p, hs] at hz
            cases hz
        rw [decodeMembers_cons_ok equalFold key v rest p q saved f hk hs, ih,
          List.findSome?_cons, hm]
      | error e =>
        have hz : storeField zeroPayload f v = .error e :=
          (storeField_error_iff p zeroPayload f v e).mp hs
        have hm : memberTypeError equalFold (key, v) = some e := by
          simp [memberTypeError, hk, hz]
        rw [decodeMembers_cons_error equalFold key v rest p saved f e hk hs, ih,
          List.findSome?_cons, hm]
        cases saved <;> rfl

/-- The member loop leaves `Value` alone when no member goes into it. -/
theorem decodeMembers_value_eq (equalFold : String → String → Bool) :
    ∀ (members : List (String × JSONValue)) (p : SensorPayload)
      (saved : Option UnmarshalTypeError),
      (∀ kv ∈ members, fieldForKey equalFold kv.1 ≠ some .value) →
      (decodeMembers equalFold members p saved).1.Value = p.Value := by
  intro members
  induction members with
  | nil => intro p saved _; rfl
  | cons kv rest ih =>
    intro p saved hno
    obtain ⟨key, v⟩ := kv
    have hrest : ∀ kv ∈ rest, fieldForKey equalFold kv.1 ≠ some .value :=
      fun kv hkv => hno kv (List.mem_cons_of_mem _ hkv)
    have hkey : fieldForKey equalFold key ≠ some .value := hno (key, v) (List.mem_cons_self _ _)
    cases hk : fieldForKey equalFold key with
    | none =>
      rw [decodeMembers_cons_skip equalFold key v rest p saved hk]
      exact ih p saved hrest
    | some f =>
      have hf : f ≠ .value := fun e => hkey (by rw [hk, e])
      cases hs : storeField p f v with
      | ok q =>
        rw [decodeMembers_cons_ok equalFold key v rest p q saved f hk hs, ih q saved hrest]
        exact storeField_value_eq p q f v hf hs
      | error e =>
        rw [decodeMembers_cons_error equalFold key v rest p saved f e hk hs]
        exact ih p _ hrest

/-- The member loop does the same with and without the members whose key
goes into no field. -/
theorem decodeMembers_filter (equalFold : String → String → Bool) :
    ∀ (members : List (String × JSONValue)) (p : SensorPayload)
      (saved : Option UnmarshalTypeError),
      decodeMembers equalFold
          (members.filter (fun kv => (fieldForKey equalFold kv.1).isSome)) p saved =
        decodeMembers equalFold members p saved := by
  intro members
  induction members with
  | nil => intro p saved; rfl
  | cons kv rest ih =>
    intro p saved
    obtain ⟨key, v⟩ := kv
    cases hk : fieldForKey equalFold key with
    | none =>
      rw [decodeMembers_cons_skip equalFold key v rest p saved hk]
      simp [List.filter_cons, hk, ih]
    | some f =>
      have hfil : ((key, v) :: rest).filter (fun kv => (fieldForKey equalFold kv.1).isSome) =
          (key, v) :: rest.filter (fun kv => (fieldForKey equalFold kv.1).isSome) := by
        simp [List.filter_cons, hk]
      rw [hfil]
      cases hs : storeField p f v with
      | ok q =>
        rw [decodeMembers_cons_ok equalFold key v rest p q saved f hk hs,
          decodeMembers_cons_ok equalFold key v _ p q saved f hk hs]
        exact ih q saved
      | error e =>
        rw [decodeMembers_cons_error equalFold key v rest p saved f e hk hs,
          decodeMembers_cons_error equalFold key v _ p saved f e hk hs]
        exact ih p _

theorem unmarshal_object_eq (equalFold : String → String → Bool)
    (members : List (String × JSONValue)) :
    unmarshal equalFold (.object members) =
      match decodeMembers equalFold members zeroPayload none with
      | (p, none) => .ok p
      | (_, some e) => .error e := by
  simp only [unmarshal]

/-- The outcome of `unmarshal` on an object, from the two components of the
member loop. -/
theorem unmarshal_object (equalFold : String → String → Bool)
    (members : List (String × JSONValue)) :
    unmarshal equalFold (.object members) =
      match members.findSome? (memberTypeError equalFold) with
      | none => .ok (decodeMembers equalFold members zeroPayload none).1
      | some e => .error e := by
  have h := decodeMembers_saved equalFold members zeroPayload none
  simp only at h
  rw [unmarshal_object_eq]
  cases hd : decodeMembers equalFold members zeroPayload none with
  | mk q saved =>
    rw [hd] at h
    simp only at h
    rw [← h]
    cases saved <;> rfl

/-- C9, as the code has it: decoding a JSON object does not fail because
`value` is missing.  When no member goes into `value` and every member that
goes into a field can be stored there (`memberTypeError` is none: right JSON
type, and a number that converts), decoding succeeds and leaves `Value` at
`0`; and the members whose key goes into no field are ignored, the outcome
being the same with and without them. -/
theorem unmarshal_missing_value_zero (equalFold : String → String → Bool)
    (members : List (String × JSONValue)) :
    ((∀ kv ∈ members, fieldForKey equalFold kv.1 ≠ some .value) →
      (∀ kv ∈ members, memberTypeError equalFold kv = none) →
      ∃ p, unmarshal equalFold (.object members) = .ok p ∧ p.Value = 0) ∧
    unmarshal equalFold
        (.object (members.filter (fun kv => (fieldForKey equalFold kv.1).isSome))) =
      unmarshal equalFold (.object members) := by
  refine ⟨?_, ?_⟩
  · intro hno hty
    have hnone : members.findSome? (memberTypeError equalFold) = none := by
      rw [List.findSome?_eq_none_iff]
      exact hty
    refine ⟨(decodeMembers equalFold members zeroPayload none).1, ?_, ?_⟩
    · rw [unmarshal_object, hnone]
    · rw [decodeMembers_value_eq equalFold members zeroPayload none hno]
      rfl
  · rw [unmarshal_object_eq, unmarshal_object_eq, decodeMembers_filter]

/-- C9 as amended, on the object with members `sensorId: "x"` and
`extra: true`: no member for `value`, no type error, and decoding succeeds
with `Value = 0`. -/
theorem unmarshal_missing_value_zero_witness :
    (∀ kv ∈ [("sensorId", JSONValue.string "x"), ("extra", JSONValue.bool true)],
      fieldForKey asciiEqualFold kv.1 ≠ some .value) ∧
    (∀ kv ∈ [("sensorId", JSONValue.string "x"), ("extra", JSONValue.bool true)],
      memberTypeError asciiEqualFold kv = none) ∧
    ∃ p, unmarshal asciiEqualFold
      (.object [("sensorId", .string "x"), ("extra", .bool true)]) = .ok p ∧ p.Value = 0 :=
  ⟨by decide, by decide,
    (unmarshal_missing_value_zero asciiEqualFold
      [("sensorId", .string "x"), ("extra", .bool true)]).1 (by decide) (by decide)⟩

/-- C9 as stated fails: the object with the single member `sensorId: "x"` has
no member for `value`, yet decoding it does not fail, it yields `Value = 0`,
and under the rule `home/+/reading` the reading is forwarded. -/
theorem unmarshal_missing_value_counterexample :
    fieldForKey asciiEqualFold "sensorId" ≠ some .value ∧
    (¬ ∃ e, unmarshal asciiEqualFold (.object [("sensorId", .string "x")]) = .error e) ∧
    unmarshal asciiEqualFold (.object [("sensorId", .string "x")]) = .ok ⟨"x", 0, 0⟩ ∧
    forwarderCalls (messageHandler (NewMQTTBridge ⟨[⟨"home/+/reading", true, ""⟩]⟩)
      "home/kitchen/reading"
      (unmarshal asciiEqualFold (.object [("sensorId", .string "x")]))
      1700000000000 (fun _ _ _ => none)) = [("x", 0, 1700000000000)] := by
  have hu : unmarshal asciiEqualFold (.object [("sensorId", .string "x")]) =
      .ok ⟨"x", 0, 0⟩ := rfl
  refine ⟨by decide, ?_, hu, ?_⟩
  · rintro ⟨e, he⟩
    rw [hu] at he
    cases he
  · rw [hu, forwarderCalls_messageHandler]
    rfl

end FormsBridge
